import Mathlib

/-!
Verification of the zikalyze asset scripts.

Shallow embedding conventions:
* A raster image is modelled as explicit pixel dimensions together with a
  total pixel function; all images in scope are RGBA with 8-bit channels
  stored as `Nat` (the scripts convert every input to RGBA before touching
  pixels, so the embedding works in RGBA throughout).
* PIL library primitives whose pixel-level output the scripts do not
  depend on (the LANCZOS resampling kernel, the alpha-blend used by
  `paste` with a mask) are uninterpreted function parameters; the library
  contract the scripts rely on (a resize returns an image of exactly the
  requested dimensions) is part of the embedding of `Image.resize`.
* Python float division followed by `int(...)` truncation on nonnegative
  values is modelled as exact rational floor, i.e. `Nat` division.
* Text files are lists of characters; a file that may be absent is an
  `Option`.  Python exceptions are `Except` / `Option` values, and the
  filesystem a script reads and writes is a map from paths to images.
-/

namespace Zik

/-- One RGBA pixel, channels 0–255 (the bound is irrelevant to the claims). -/
structure Pixel where
  r : Nat
  g : Nat
  b : Nat
  a : Nat
deriving DecidableEq, Repr

/-- A raster image: dimensions plus a total pixel lookup (row `y`, column `x`);
lookups outside the dimensions are unconstrained, as in a wrapped buffer. -/
structure Image where
  width : Nat
  height : Nat
  pix : Nat → Nat → Pixel

/-- `PIL.Image.new('RGBA', (w, h), c)`: a fresh canvas filled with one color. -/
def Image.new (w h : Nat) (c : Pixel) : Image :=
  { width := w, height := h, pix := fun _ _ => c }

/-- `img.resize((w, h), LANCZOS)`: the result has exactly the requested
dimensions; its pixel content is the resampling `kernel` applied to the
source, left uninterpreted. -/
def resizeImg (kernel : Image → Nat → Nat → Nat → Nat → Pixel)
    (img : Image) (w h : Nat) : Image :=
  { width := w, height := h, pix := fun y x => kernel img w h y x }

/-- `canvas.paste(overlay, (ox, oy), overlay)`: inside the pasted rectangle
the canvas pixel is combined with the overlay pixel by the library's
mask blend (uninterpreted `blend`); outside it the canvas is untouched. -/
def pasteMasked (blend : Pixel → Pixel → Pixel) (canvas overlay : Image)
    (ox oy : Nat) : Image :=
  { canvas with
    pix := fun y x =>
      if ox ≤ x ∧ x < ox + overlay.width ∧ oy ≤ y ∧ y < oy + overlay.height then
        blend (canvas.pix y x) (overlay.pix (y - oy) (x - ox))
      else
        canvas.pix y x }

/-- The white mask of `remove-white-background.py`: a pixel is white when
all three color channels are strictly above the threshold
(`(r > threshold) & (g > threshold) & (b > threshold)`). -/
def whiteMask (threshold : Nat) (p : Pixel) : Bool :=
  decide (threshold < p.r) && decide (threshold < p.g) && decide (threshold < p.b)

/-- `remove_white_background(input, output, threshold)` from
`remove-white-background.py`, as the pixel-level transform it applies to
the RGBA-converted image: `data[:, :, 3] = np.where(white_mask, 0, a)`,
i.e. masked pixels get alpha 0 and every other channel is untouched. -/
def remove_white_background (threshold : Nat) (img : Image) : Image :=
  { img with
    pix := fun y x =>
      let p := img.pix y x
      if whiteMask threshold p then { p with a := 0 } else p }

/-- The number of pixels whose alpha `remove_white_background` sets to 0
at a given threshold: the in-bounds positions satisfying the white mask. -/
def madeTransparentCount (threshold : Nat) (img : Image) : Nat :=
  ((Finset.range img.height ×ˢ Finset.range img.width).filter
    (fun yx => whiteMask threshold (img.pix yx.1 yx.2) = true)).card

/-- `optimize_png(input, output, size, quality_level)` from
`optimize-logos.py`, as the pixel-level transform between decode and
encode: the RGBA image is resized (LANCZOS) only when a size is given and
it differs from the current size (`if size and img.size != size`);
compression-level choices do not touch pixels. -/
def optimize_png (kernel : Image → Nat → Nat → Nat → Nat → Pixel)
    (img : Image) (size : Option (Nat × Nat)) : Image :=
  match size with
  | none => img
  | some s =>
      if (img.width, img.height) = s then img else resizeImg kernel img s.1 s.2

/-- A concrete stand-in for the LANCZOS kernel, used only in witnesses. -/
def testKernel : Image → Nat → Nat → Nat → Nat → Pixel :=
  fun _ _ _ _ _ => ⟨0, 0, 0, 0⟩

/-- A concrete stand-in for the paste mask blend, used only in witnesses. -/
def testBlend : Pixel → Pixel → Pixel := fun _ o => o

/-- A concrete 300×200 image, used only in witnesses. -/
def img300 : Image := ⟨300, 200, fun _ _ => ⟨1, 2, 3, 4⟩⟩

/-- A concrete 1×1 image holding one fully transparent black pixel. -/
def imgTransparentBlack : Image := ⟨1, 1, fun _ _ => ⟨0, 0, 0, 0⟩⟩

end Zik

namespace FixLogos

open Zik

/-- Default background of `convert_and_resize`: dark slate `(15, 23, 42, 255)`. -/
def bgDefault : Pixel := ⟨15, 23, 42, 255⟩

/-- The size the source is scaled to inside the square branch of
`convert_and_resize`: if the source is wider than tall
(`img_ratio > 1`, i.e. `h < w`) the width becomes `tw` and the height
`int(tw / img_ratio)`; otherwise the height becomes `th` and the width
`int(th * img_ratio)`. -/
def fitSize (w h tw th : Nat) : Nat × Nat :=
  if h < w then (tw, tw * h / w) else (th * w / h, th)

/-- `convert_and_resize(input, output, target_size, bg_color)` from
`fix_logos.py`, as the pixel-level transform it applies between decode and
encode.  For a square target the source is scaled to `fitSize`, a fresh
canvas of the target size is filled with `bg`, and the scaled image is
pasted centered; for a non-square target the source is resized directly. -/
def convert_and_resize (kernel : Image → Nat → Nat → Nat → Nat → Pixel)
    (blend : Pixel → Pixel → Pixel) (img : Image) (tw th : Nat)
    (bg : Pixel) : Image :=
  if tw = th then
    let ns := fitSize img.width img.height tw th
    let resized := resizeImg kernel img ns.1 ns.2
    let canvas := Image.new tw th bg
    pasteMasked blend canvas resized ((tw - ns.1) / 2) ((th - ns.2) / 2)
  else
    resizeImg kernel img tw th

/-- Dropping an exception result to `Option`: the per-file
`try/except Exception` in `main` catches a failed conversion and logs it. -/
def exceptToOption {ε β : Type} : Except ε β → Option β
  | Except.ok b => some b
  | Except.error _ => none

/-- The processing loop of `main` in `fix_logos.py`, in an exception monad:
each list entry is run with its own `try/except` around it (a failure
becomes `none` and the loop goes on); an uncaught exception would surface
as `Except.error`. -/
def processConversions {α ε β : Type} (run : α → Except ε β) :
    List α → Except ε (List (Option β))
  | [] => Except.ok []
  | it :: rest =>
    let r := exceptToOption (run it)
    match processConversions run rest with
    | Except.ok l => Except.ok (r :: l)
    | Except.error e => Except.error e

/-- A filesystem path, as the character string Python compares. -/
abbrev Path : Type := List Char

/-- `os.path.join(base_dir, rel)` on the relative paths of `fix_logos.py`. -/
def pathJoin (base : Path) (rel : String) : Path :=
  base ++ ('/' :: rel.toList)

/-- The relative path of the source logo in `fix_logos.py`
(`src/assets/zikalyze-logo.png`). -/
def srcRel : String := "src/assets/zikalyze-logo.png"

/-- One entry of the `conversions` list: input path, output path, target
width and height (all conversions use the default background). -/
structure Conv where
  input : String
  output : String
  tw : Nat
  th : Nat
deriving DecidableEq, Repr

/-- The 19-entry `conversions` list of `fix_logos.py`, with the source
logo as every input and the literal relative output paths and sizes. -/
def conversions : List Conv := [
  ⟨srcRel, srcRel, 512, 512⟩,
  ⟨srcRel, "public/pwa-512x512.png", 512, 512⟩,
  ⟨srcRel, "public/pwa-192x192.png", 192, 192⟩,
  ⟨srcRel, "public/favicon.png", 48, 48⟩,
  ⟨srcRel, "android/app/src/main/res/mipmap-mdpi/ic_launcher.png", 48, 48⟩,
  ⟨srcRel, "android/app/src/main/res/mipmap-mdpi/ic_launcher_round.png", 48, 48⟩,
  ⟨srcRel, "android/app/src/main/res/mipmap-mdpi/ic_launcher_foreground.png", 48, 48⟩,
  ⟨srcRel, "android/app/src/main/res/mipmap-hdpi/ic_launcher.png", 72, 72⟩,
  ⟨srcRel, "android/app/src/main/res/mipmap-hdpi/ic_launcher_round.png", 72, 72⟩,
  ⟨srcRel, "android/app/src/main/res/mipmap-hdpi/ic_launcher_foreground.png", 72, 72⟩,
  ⟨srcRel, "android/app/src/main/res/mipmap-xhdpi/ic_launcher.png", 96, 96⟩,
  ⟨srcRel, "android/app/src/main/res/mipmap-xhdpi/ic_launcher_round.png", 96, 96⟩,
  ⟨srcRel, "android/app/src/main/res/mipmap-xhdpi/ic_launcher_foreground.png", 96, 96⟩,
  ⟨srcRel, "android/app/src/main/res/mipmap-xxhdpi/ic_launcher.png", 144, 144⟩,
  ⟨srcRel, "android/app/src/main/res/mipmap-xxhdpi/ic_launcher_round.png", 144, 144⟩,
  ⟨srcRel, "android/app/src/main/res/mipmap-xxhdpi/ic_launcher_foreground.png", 144, 144⟩,
  ⟨srcRel, "android/app/src/main/res/mipmap-xxxhdpi/ic_launcher.png", 192, 192⟩,
  ⟨srcRel, "android/app/src/main/res/mipmap-xxxhdpi/ic_launcher_round.png", 192, 192⟩,
  ⟨srcRel, "android/app/src/main/res/mipmap-xxxhdpi/ic_launcher_foreground.png", 192, 192⟩]

/-- The filesystem as the scripts see it: a map from paths to images. -/
abbrev FSys : Type := Path → Option Image

/-- One iteration of the `main` loop of `fix_logos.py` on the filesystem:
open the entry's input (a missing/corrupt file raises and the per-file
`try/except` leaves the filesystem unchanged), run `convert_and_resize`
with the default background and save to the entry's output path. -/
def stepConv (kernel : Image → Nat → Nat → Nat → Nat → Pixel)
    (blend : Pixel → Pixel → Pixel) (base : Path) (fs : FSys) (c : Conv) :
    FSys :=
  match fs (pathJoin base c.input) with
  | none => fs
  | some img =>
      fun p =>
        if p = pathJoin base c.output then
          some (convert_and_resize kernel blend img c.tw c.th bgDefault)
        else fs p

/-- The whole `main` loop of `fix_logos.py`: fold `stepConv` over the
`conversions` list, left to right. -/
def runConversions (kernel : Image → Nat → Nat → Nat → Nat → Pixel)
    (blend : Pixel → Pixel → Pixel) (base : Path) (fs : FSys) : FSys :=
  conversions.foldl (stepConv kernel blend base) fs

/-- A concrete filesystem holding only the source logo, for witnesses. -/
def testFS : FSys :=
  fun p => if p = pathJoin [] srcRel then some Zik.img300 else none

end FixLogos

namespace VerifyAab

/-- Python `\s` (ASCII range): space, tab, newline, carriage return,
vertical tab, form feed. -/
def isPySpace (c : Char) : Bool :=
  c = ' ' || c = '\t' || c = '\n' || c = '\r' || c = '\x0b' || c = '\x0c'

/-- ASCII decimal digit, Python `\d` on ASCII text. -/
def isAsciiDigit (c : Char) : Bool :=
  '0' ≤ c && c ≤ '9'

/-- Strip an exact literal from the front of a string, returning the rest. -/
def stripLit : List Char → List Char → Option (List Char)
  | [], s => some s
  | _ :: _, [] => none
  | c :: cs, d :: ds => if c = d then stripLit cs ds else none

/-- `s.startswith(pre)`. -/
def startsWithL (pre s : List Char) : Bool :=
  (stripLit pre s).isSome

/-- Python `needle in hay` substring containment. -/
def containsSub (needle : List Char) : List Char → Bool
  | [] => startsWithL needle []
  | c :: cs => startsWithL needle (c :: cs) || containsSub needle cs

/-- `content.lower()` on ASCII text. -/
def toLowerL (s : List Char) : List Char :=
  s.map Char.toLower

/-- `content.split('\n')`. -/
def splitNl : List Char → List (List Char)
  | [] => [[]]
  | c :: cs =>
    if c = '\n' then [] :: splitNl cs
    else
      match splitNl cs with
      | [] => [[c]]
      | l :: ls => (c :: l) :: ls

/-- `line.strip()`: whitespace removed from both ends. -/
def stripWS (s : List Char) : List Char :=
  (((s.dropWhile isPySpace).reverse).dropWhile isPySpace).reverse

/-- Try the regex `versionCode\s+(\d+)` at the start of `s`: the literal,
one or more whitespace characters, then the captured maximal digit run
(whitespace and digits are disjoint, so greedy matching is exact). -/
def vcMatchAt (s : List Char) : Option (List Char) :=
  match stripLit ("versionCode").toList s with
  | none => none
  | some rest =>
    let sp := rest.takeWhile isPySpace
    if sp = [] then none
    else
      let ds := (rest.drop sp.length).takeWhile isAsciiDigit
      if ds = [] then none else some ds

/-- `re.search(r'versionCode\s+(\d+)', content)`: the captured group of the
leftmost match, scanning positions left to right. -/
def searchVersionCode : List Char → Option (List Char)
  | [] => vcMatchAt []
  | c :: cs =>
    match vcMatchAt (c :: cs) with
    | some ds => some ds
    | none => searchVersionCode cs

/-- The double-quote character. -/
def dq : Char := '\x22'

/-- Try the regex `versionName\s+"([^"]+)"` at the start of `s`. -/
def vnMatchAt (s : List Char) : Option (List Char) :=
  match stripLit ("versionName").toList s with
  | none => none
  | some rest =>
    let sp := rest.takeWhile isPySpace
    if sp = [] then none
    else
      match rest.drop sp.length with
      | [] => none
      | q :: rest2 =>
        if q = dq then
          let nm := rest2.takeWhile (fun c => ¬ (c = dq))
          if nm = [] then none
          else
            match rest2.drop nm.length with
            | [] => none
            | q2 :: _ => if q2 = dq then some nm else none
        else none

/-- `re.search(r'versionName\s+"([^"]+)"', content)`: the captured group of
the leftmost match. -/
def searchVersionName : List Char → Option (List Char)
  | [] => vnMatchAt []
  | c :: cs =>
    match vnMatchAt (c :: cs) with
    | some ds => some ds
    | none => searchVersionName cs

/-- The version code the script prints for a build.gradle content: the
captured digits of the leftmost `versionCode\s+(\d+)` match. -/
def reportedVersionCode (content : Option (List Char)) : Option (List Char) :=
  content.bind searchVersionCode

/-- Whether `check_build_gradle` records a `versionCode` issue: it does
exactly when the regex finds no match. -/
def versionCodeIssue (content : List Char) : Bool :=
  !(searchVersionCode content).isSome

/-- `check_build_gradle()` of `verify_aab.py`: false when the file is
missing; otherwise true exactly when no issue is recorded — namespace
literal present, `versionCode` regex matches, `versionName` regex matches,
and `proguardFiles` present (`minifyEnabled` is only a warning). -/
def check_build_gradle (content : Option (List Char)) : Bool :=
  match content with
  | none => false
  | some c =>
    containsSub ("namespace \x22com.zikalyze.app\x22").toList c &&
    (searchVersionCode c).isSome &&
    (searchVersionName c).isSome &&
    containsSub ("proguardFiles").toList c

/-- `check_proguard_rules()` of `verify_aab.py`: false when the file is
missing; otherwise true exactly when no issue is recorded — the
JavaScript-interface keep rules, a non-comment `-keepattributes` line
naming `SourceFile` and `LineNumberTable`, and a Capacitor/Cordova rule. -/
def check_proguard_rules (content : Option (List Char)) : Bool :=
  match content with
  | none => false
  | some c =>
    (containsSub ("-keepclassmembers").toList c &&
      containsSub ("javascript").toList (toLowerL c)) &&
    ((splitNl c).any (fun line =>
      let l := stripWS line
      startsWithL ("-keepattributes").toList l &&
      containsSub ("SourceFile").toList l &&
      containsSub ("LineNumberTable").toList l &&
      !(startsWithL ("#").toList l))) &&
    (containsSub ("capacitor").toList (toLowerL c) ||
      containsSub ("cordova").toList (toLowerL c))

/-- `check_manifest()` of `verify_aab.py`: false when the file is missing;
otherwise true exactly when no issue is recorded — the INTERNET
permission, an exported activity and the launcher intent filter (the
application-id check is only a warning). -/
def check_manifest (content : Option (List Char)) : Bool :=
  match content with
  | none => false
  | some c =>
    containsSub ("android.permission.INTERNET").toList c &&
    containsSub ("android:exported=\x22true\x22").toList c &&
    (containsSub ("android.intent.action.MAIN").toList c &&
      containsSub ("android.intent.category.LAUNCHER").toList c)

/-- The files `verify_aab.py` inspects. -/
structure RepoFiles where
  buildGradle : Option (List Char)
  proguardRules : Option (List Char)
  manifest : Option (List Char)
  privacyExists : Bool
  termsExists : Bool
  aabExists : Bool

/-- `check_privacy_compliance()`: both the privacy policy and the terms of
service HTML files must exist (a missing terms file is printed as a
warning but still recorded as an issue). -/
def check_privacy_compliance (f : RepoFiles) : Bool :=
  f.privacyExists && f.termsExists

/-- `check_aab_file()`: true exactly when the release AAB exists (its size
and bundletool availability only produce informational output). -/
def check_aab_file (f : RepoFiles) : Bool :=
  f.aabExists

/-- The process exit status of `main()` in `verify_aab.py`:
`all_passed` accumulates `check_build_gradle`, `check_proguard_rules`,
`check_manifest` and `check_privacy_compliance`; `check_aab_file()` is
called but deliberately not accumulated ("Don't fail on missing AAB"). -/
def main_exit (f : RepoFiles) : Nat :=
  if check_build_gradle f.buildGradle &&
      check_proguard_rules f.proguardRules &&
      check_manifest f.manifest &&
      check_privacy_compliance f then 0 else 1

/-- Concrete build.gradle content whose first versionCode match is `77`;
it contains the text `versionCode 7` as a substring. -/
def bg77 : List Char := ("versionCode 77").toList

/-- Concrete contents on which all four accumulated checks pass. -/
def goodGradle : List Char :=
  ("namespace \x22com.zikalyze.app\x22\nversionCode 7\nversionName \x221.0.0\x22\nproguardFiles getDefaultProguardFile").toList

/-- Concrete ProGuard rules on which `check_proguard_rules` passes. -/
def goodProguard : List Char :=
  ("-keepclassmembers class sample javascript\n-keepattributes SourceFile,LineNumberTable\n-keep class com.getcapacitor.Plugin").toList

/-- Concrete manifest on which `check_manifest` passes. -/
def goodManifest : List Char :=
  ("uses android.permission.INTERNET android:exported=\x22true\x22 android.intent.action.MAIN android.intent.category.LAUNCHER").toList

/-- A repository state where every accumulated check passes but the AAB
file is absent. -/
def goodFilesNoAab : RepoFiles :=
  ⟨some goodGradle, some goodProguard, some goodManifest, true, true, false⟩

/-- A repository state with a valid build.gradle and a manifest that lacks
the INTERNET permission. -/
def filesNoInternet : RepoFiles :=
  ⟨some goodGradle, some goodProguard, some ("manifest without permissions").toList,
    true, true, true⟩

end VerifyAab

namespace Zik

/-- C1: the icon produced by `convert_and_resize` always has exactly the
requested target dimensions, in both the square branch (fresh canvas of the
target size) and the non-square branch (direct resize to the target). -/
theorem convert_and_resize_dims (kernel : Image → Nat → Nat → Nat → Nat → Pixel)
    (blend : Pixel → Pixel → Pixel) (img : Image) (tw th : Nat) (bg : Pixel)
    (hw : 0 < img.width) (hh : 0 < img.height) (htw : 0 < tw) (hth : 0 < th) :
    (FixLogos.convert_and_resize kernel blend img tw th bg).width = tw ∧
    (FixLogos.convert_and_resize kernel blend img tw th bg).height = th := by
  unfold FixLogos.convert_and_resize
  by_cases h : tw = th <;>
    simp [h, pasteMasked, Image.new, resizeImg]

/-- Witness for C1 at a concrete 300×200 image and 512×512 target. -/
theorem convert_and_resize_dims_witness :
    (FixLogos.convert_and_resize testKernel testBlend img300 512 512
        FixLogos.bgDefault).width = 512 ∧
    (FixLogos.convert_and_resize testKernel testBlend img300 512 512
        FixLogos.bgDefault).height = 512 :=
  convert_and_resize_dims _ _ _ _ _ _ (by decide) (by decide) (by decide)
    (by decide)

/-- C2: fitting a 300×200 source into a 512×512 square target yields an
output of exactly 512×512; the source is scaled so that its longer
dimension equals 512, to 512×341 (aspect ratio preserved, `fitSize`); the
scaled image is pasted with horizontal offset 0 and vertical offset
`(512 − 341) / 2 = 85`; and every pixel of the top margin (`y < 85`) and
bottom margin (`426 ≤ y`) is exactly the background fill color. -/
theorem convert_and_resize_300x200 (kernel : Image → Nat → Nat → Nat → Nat → Pixel)
    (blend : Pixel → Pixel → Pixel) (img : Image)
    (hw : img.width = 300) (hh : img.height = 200) (bg : Pixel) :
    (FixLogos.convert_and_resize kernel blend img 512 512 bg).width = 512 ∧
    (FixLogos.convert_and_resize kernel blend img 512 512 bg).height = 512 ∧
    FixLogos.fitSize 300 200 512 512 = (512, 341) ∧
    (∀ y x : Nat, 85 ≤ y → y < 426 → x < 512 →
      (FixLogos.convert_and_resize kernel blend img 512 512 bg).pix y x =
        blend bg ((resizeImg kernel img 512 341).pix (y - 85) (x - 0))) ∧
    (∀ y x : Nat, y < 512 → x < 512 → (y < 85 ∨ 426 ≤ y) →
      (FixLogos.convert_and_resize kernel blend img 512 512 bg).pix y x = bg) := by
  have hmain : FixLogos.convert_and_resize kernel blend img 512 512 bg =
      pasteMasked blend (Image.new 512 512 bg) (resizeImg kernel img 512 341)
        0 85 := by
    simp [FixLogos.convert_and_resize, FixLogos.fitSize, hw, hh]
  refine ⟨by rw [hmain]; rfl, by rw [hmain]; rfl, by decide, ?_, ?_⟩
  · intro y x h1 h2 h3
    rw [hmain]
    simp only [pasteMasked, resizeImg, Image.new]
    rw [if_pos (by omega)]
  · intro y x hy hx hcase
    rw [hmain]
    simp only [pasteMasked, resizeImg, Image.new]
    rw [if_neg (by omega)]

/-- Witness for C2 at a concrete 300×200 image. -/
theorem convert_and_resize_300x200_witness :
    (FixLogos.convert_and_resize testKernel testBlend img300 512 512
        FixLogos.bgDefault).width = 512 ∧
    (FixLogos.convert_and_resize testKernel testBlend img300 512 512
        FixLogos.bgDefault).height = 512 ∧
    FixLogos.fitSize 300 200 512 512 = (512, 341) ∧
    (∀ y x : Nat, 85 ≤ y → y < 426 → x < 512 →
      (FixLogos.convert_and_resize testKernel testBlend img300 512 512
          FixLogos.bgDefault).pix y x =
        testBlend FixLogos.bgDefault
          ((resizeImg testKernel img300 512 341).pix (y - 85) (x - 0))) ∧
    (∀ y x : Nat, y < 512 → x < 512 → (y < 85 ∨ 426 ≤ y) →
      (FixLogos.convert_and_resize testKernel testBlend img300 512 512
          FixLogos.bgDefault).pix y x = FixLogos.bgDefault) :=
  convert_and_resize_300x200 testKernel testBlend img300 rfl rfl _

/-- C4: resizing an already-correctly-sized image to its current size is
idempotent — when the requested size equals the image's size,
`optimize_png` applies no resize and the output image (its pixel buffer
included) is the input unchanged. -/
theorem optimize_png_id (kernel : Image → Nat → Nat → Nat → Nat → Pixel)
    (img : Image) (size : Option (Nat × Nat))
    (h : size = some (img.width, img.height)) :
    optimize_png kernel img size = img := by
  subst h
  simp [optimize_png]

/-- Witness for C4 at a concrete 300×200 image. -/
theorem optimize_png_id_witness :
    optimize_png testKernel img300 (some (300, 200)) = img300 :=
  optimize_png_id testKernel img300 (some (300, 200)) rfl

/-- Raising the threshold shrinks the white mask pointwise. -/
theorem whiteMask_antitone {t1 t2 : Nat} (h : t1 ≤ t2) (p : Pixel)
    (hm : whiteMask t2 p = true) : whiteMask t1 p = true := by
  simp only [whiteMask, Bool.and_eq_true, decide_eq_true_eq] at hm ⊢
  omega

/-- C3: for a fixed input image, the background-removal predicate is
monotonic in its threshold — with `t1 ≤ t2`, the number of pixels whose
alpha `remove_white_background` sets to 0 at threshold `t2` is at most the
number at threshold `t1`. -/
theorem madeTransparentCount_antitone (img : Image) (t1 t2 : Nat)
    (h : t1 ≤ t2) :
    madeTransparentCount t2 img ≤ madeTransparentCount t1 img := by
  apply Finset.card_le_card
  intro yx hyx
  rw [Finset.mem_filter] at hyx ⊢
  exact ⟨hyx.1, whiteMask_antitone h _ hyx.2⟩

/-- Witness for C3 at a concrete image and thresholds 230 ≤ 240. -/
theorem madeTransparentCount_antitone_witness :
    madeTransparentCount 240 img300 ≤ madeTransparentCount 230 img300 :=
  madeTransparentCount_antitone img300 230 240 (by decide)

/-- C5 counterexample: the claimed "only if" direction fails.  On a pixel
`(0, 0, 0, 0)` at threshold 240 the output alpha is 0 even though not all
channels exceed the threshold: a pixel that keeps its original alpha can
already be transparent. -/
theorem remove_white_background_alpha_not_iff :
    ((remove_white_background 240 imgTransparentBlack).pix 0 0).a = 0 ∧
    whiteMask 240 (imgTransparentBlack.pix 0 0) = false := by
  constructor <;> rfl

/-- C5 (amended): the output alpha of every pixel is 0 when all three
color channels strictly exceed the threshold, and is the pixel's original
alpha otherwise (so an untouched pixel can still have alpha 0 if it
started that way). -/
theorem remove_white_background_alpha (img : Image) (t y x : Nat) :
    ((remove_white_background t img).pix y x).a =
      (if whiteMask t (img.pix y x) = true then 0 else (img.pix y x).a) := by
  simp only [remove_white_background]
  by_cases h : whiteMask t (img.pix y x) = true <;> simp [h]

/-- C10: `remove_white_background` modifies only the alpha channel — the
dimensions are unchanged, every pixel's R, G and B equal the input's, and
the alpha of every pixel not matching the white mask equals its input
alpha (the `if` reduces to the original alpha there). -/
theorem remove_white_background_frame (img : Image) (t : Nat) :
    (remove_white_background t img).width = img.width ∧
    (remove_white_background t img).height = img.height ∧
    (∀ y x : Nat,
      ((remove_white_background t img).pix y x).r = (img.pix y x).r ∧
      ((remove_white_background t img).pix y x).g = (img.pix y x).g ∧
      ((remove_white_background t img).pix y x).b = (img.pix y x).b ∧
      ((remove_white_background t img).pix y x).a =
        (if whiteMask t (img.pix y x) = true then 0 else (img.pix y x).a)) := by
  refine ⟨rfl, rfl, ?_⟩
  intro y x
  simp only [remove_white_background]
  by_cases h : whiteMask t (img.pix y x) = true <;> simp [h]

end Zik

namespace FixLogos

/-- C8: the per-file `try/except` in the `main` loop of `fix_logos.py`
makes every entry of the list be attempted with its own result — the loop
never surfaces an exception (`Except.ok`), and the i-th result is exactly
the caught outcome of running the i-th entry, independent of every other
entry's failure. -/
theorem processConversions_total {α ε β : Type} (run : α → Except ε β)
    (items : List α) :
    processConversions run items =
      Except.ok (items.map fun it => exceptToOption (run it)) := by
  induction items with
  | nil => rfl
  | cons it rest ih => simp [processConversions, ih]

end FixLogos

namespace VerifyAab

/-- C6 counterexample: a build.gradle content can contain the text
`versionCode 7` while the script extracts and reports a different version
code — on `versionCode 77` the regex `versionCode\s+(\d+)` captures `77`,
not `7`. -/
theorem versionCode_report_counterexample :
    containsSub ("versionCode 7").toList bg77 = true ∧
    searchVersionCode bg77 = some ['7', '7'] ∧
    some ['7', '7'] ≠ some ['7'] := by
  refine ⟨by decide, by decide, by decide⟩

/-- C6 (amended): for every build.gradle content whose leftmost
`versionCode\s+(\d+)` match captures exactly the digits `7`, the script
reports version code 7 and records no version-code issue; and for every
manifest content not containing `android.permission.INTERNET`,
`check_manifest` fails and the overall exit status is 1. -/
theorem versionCode_and_internet_checks (f : RepoFiles) (bg m : List Char)
    (hbg : f.buildGradle = some bg)
    (hvc : searchVersionCode bg = some ['7'])
    (hm : f.manifest = some m)
    (hni : containsSub ("android.permission.INTERNET").toList m = false) :
    reportedVersionCode f.buildGradle = some ['7'] ∧
    versionCodeIssue bg = false ∧
    check_manifest f.manifest = false ∧
    main_exit f = 1 := by
  have hcm : check_manifest f.manifest = false := by
    rw [hm]
    simp only [check_manifest, hni, Bool.false_and]
  refine ⟨?_, ?_, hcm, ?_⟩
  · rw [hbg]
    simp [reportedVersionCode, hvc]
  · simp [versionCodeIssue, hvc]
  · simp [main_exit, hcm]

/-- Witness for the amended C6 at concrete file contents. -/
theorem versionCode_and_internet_checks_witness :
    reportedVersionCode filesNoInternet.buildGradle = some ['7'] ∧
    versionCodeIssue goodGradle = false ∧
    check_manifest filesNoInternet.manifest = false ∧
    main_exit filesNoInternet = 1 :=
  versionCode_and_internet_checks filesNoInternet goodGradle
    (("manifest without permissions").toList) rfl (by decide) rfl (by decide)

/-- C7 counterexample: the exit status does not cover the AAB-file check.
On a repository state where the four accumulated checks pass but the AAB
is absent, `check_aab_file` fails yet `main` still exits 0. -/
theorem main_exit_ignores_aab :
    main_exit goodFilesNoAab = 0 ∧
    check_aab_file goodFilesNoAab = false := by
  refine ⟨by decide, rfl⟩

/-- C7 (amended): `main` exits 0 exactly when the four accumulated checks
pass — build.gradle, ProGuard rules, manifest and privacy compliance; the
AAB-file check is reported but deliberately excluded from the status. -/
theorem main_exit_iff (f : RepoFiles) :
    main_exit f = 0 ↔
      (check_build_gradle f.buildGradle = true ∧
       check_proguard_rules f.proguardRules = true ∧
       check_manifest f.manifest = true ∧
       check_privacy_compliance f = true) := by
  unfold main_exit
  split <;> rename_i h <;> simp_all [Bool.and_eq_true]

end VerifyAab

namespace FixLogos

open Zik

/-- Two strings with the same character list are equal. -/
theorem string_toList_inj {a b : String} (h : a.toList = b.toList) : a = b := by
  cases a
  cases b
  exact congrArg String.mk h

/-- `pathJoin base` is injective in the relative path. -/
theorem pathJoin_inj {base : Path} {a b : String}
    (h : pathJoin base a = pathJoin base b) : a = b := by
  unfold pathJoin at h
  have h2 := List.append_cancel_left h
  have h3 : a.toList = b.toList := by injection h2
  exact string_toList_inj h3

/-- A fold of `stepConv` over entries none of which writes to `p` leaves
the filesystem unchanged at `p`. -/
theorem foldl_stepConv_apart (kernel : Image → Nat → Nat → Nat → Nat → Pixel)
    (blend : Pixel → Pixel → Pixel) (base : Path) :
    ∀ (l : List Conv) (fs : FSys) (p : Path),
      (∀ c ∈ l, pathJoin base c.output ≠ p) →
      (l.foldl (stepConv kernel blend base) fs) p = fs p := by
  intro l
  induction l with
  | nil => intro fs p _; rfl
  | cons c l ih =>
    intro fs p h
    have hc := h c (List.mem_cons_self c l)
    have hrest : ∀ c' ∈ l, pathJoin base c'.output ≠ p :=
      fun c' hc' => h c' (List.mem_cons_of_mem _ hc')
    rw [List.foldl_cons, ih _ _ hrest]
    unfold stepConv
    cases hfi : fs (pathJoin base c.input) with
    | none => rfl
    | some img =>
      show (if p = pathJoin base c.output
          then some (convert_and_resize kernel blend img c.tw c.th bgDefault)
          else fs p) = fs p
      exact if_neg (fun he => hc he.symm)

/-- A fold of `stepConv` over entries that all read one fixed source path
and never write to it: the source keeps its image, and every entry's
output path ends up holding the conversion of that one source image. -/
theorem foldl_stepConv_spec (kernel : Image → Nat → Nat → Nat → Nat → Pixel)
    (blend : Pixel → Pixel → Pixel) (base : Path) (v : Image) (src : Path) :
    ∀ (l : List Conv) (fs : FSys),
      (∀ c ∈ l, pathJoin base c.input = src) →
      (∀ c ∈ l, pathJoin base c.output ≠ src) →
      (l.map (fun c => pathJoin base c.output)).Nodup →
      fs src = some v →
      ((l.foldl (stepConv kernel blend base) fs) src = some v ∧
       ∀ c ∈ l, (l.foldl (stepConv kernel blend base) fs)
         (pathJoin base c.output) =
           some (convert_and_resize kernel blend v c.tw c.th bgDefault)) := by
  intro l
  induction l with
  | nil => intro fs _ _ _ hfs; exact ⟨hfs, by simp⟩
  | cons c l ih =>
    intro fs hin hout hnd hfs
    have hinc := hin c (List.mem_cons_self c l)
    have houtc := hout c (List.mem_cons_self c l)
    rw [List.map_cons] at hnd
    have hnotmem := (List.nodup_cons.mp hnd).1
    have hndtail := (List.nodup_cons.mp hnd).2
    have hfs1 : (stepConv kernel blend base fs c) src =
        some v := by
      unfold stepConv
      rw [hinc, hfs]
      show (if src = pathJoin base c.output
          then some (convert_and_resize kernel blend v c.tw c.th bgDefault)
          else fs src) = some v
      rw [if_neg (fun he => houtc he.symm)]
      exact hfs
    have hfs1out : (stepConv kernel blend base fs c)
        (pathJoin base c.output) =
          some (convert_and_resize kernel blend v c.tw c.th bgDefault) := by
      unfold stepConv
      rw [hinc, hfs]
      show (if pathJoin base c.output = pathJoin base c.output
          then some (convert_and_resize kernel blend v c.tw c.th bgDefault)
          else fs (pathJoin base c.output)) =
        some (convert_and_resize kernel blend v c.tw c.th bgDefault)
      exact if_pos rfl
    obtain ⟨ha, hb⟩ := ih (stepConv kernel blend base fs c)
      (fun c' h => hin c' (List.mem_cons_of_mem _ h))
      (fun c' h => hout c' (List.mem_cons_of_mem _ h))
      hndtail hfs1
    refine ⟨by rw [List.foldl_cons]; exact ha, ?_⟩
    intro c' hc'
    rcases List.mem_cons.mp hc' with rfl | hmem
    · have hnp : ∀ c'' ∈ l, pathJoin base c''.output ≠ pathJoin base c'.output := by
        intro c'' h'' heq
        exact hnotmem (heq ▸ List.mem_map_of_mem
          (fun cc => pathJoin base cc.output) h'')
      rw [List.foldl_cons, foldl_stepConv_apart kernel blend base l _ _ hnp]
      exact hfs1out
    · rw [List.foldl_cons]
      exact hb c' hmem

/-- C9: the first entry of the `conversions` list writes back to the
source logo path, so `main` first overwrites the source with its own
512×512 rendering; every one of the 18 subsequent entries reads the
source path and writes elsewhere, so each subsequent icon is rendered
from the already-resized 512×512 image, not from the original pixels. -/
theorem conversions_overwrite_source (kernel : Image → Nat → Nat → Nat → Nat → Pixel)
    (blend : Pixel → Pixel → Pixel) (base : Path) (fs : FSys) (img0 : Image)
    (h : fs (pathJoin base srcRel) = some img0) :
    conversions.head? = some ⟨srcRel, srcRel, 512, 512⟩ ∧
    (∀ c ∈ conversions.tail, c.input = srcRel ∧ c.output ≠ srcRel) ∧
    runConversions kernel blend base fs (pathJoin base srcRel) =
      some (convert_and_resize kernel blend img0 512 512 bgDefault) ∧
    (∀ c ∈ conversions.tail,
      runConversions kernel blend base fs (pathJoin base c.output) =
        some (convert_and_resize kernel blend
          (convert_and_resize kernel blend img0 512 512 bgDefault)
          c.tw c.th bgDefault)) := by
  have htail : ∀ c ∈ conversions.tail, c.input = srcRel ∧ c.output ≠ srcRel := by
    decide
  have hnd0 : (conversions.tail.map (fun c => c.output)).Nodup := by decide
  have hin : ∀ c ∈ conversions.tail, pathJoin base c.input = pathJoin base srcRel :=
    fun c hc => by rw [(htail c hc).1]
  have hout : ∀ c ∈ conversions.tail, pathJoin base c.output ≠ pathJoin base srcRel :=
    fun c hc heq => (htail c hc).2 (pathJoin_inj heq)
  have hnd : (conversions.tail.map (fun c => pathJoin base c.output)).Nodup := by
    have hmaps : (conversions.tail.map (fun c => pathJoin base c.output)) =
        (conversions.tail.map (fun c => c.output)).map
          (fun s => pathJoin base s) := by
      rw [List.map_map]
      rfl
    rw [hmaps]
    exact List.Nodup.map (fun a b hab => pathJoin_inj hab) hnd0
  have hfs1 : (stepConv kernel blend base fs ⟨srcRel, srcRel, 512, 512⟩)
      (pathJoin base srcRel) =
        some (convert_and_resize kernel blend img0 512 512 bgDefault) := by
    unfold stepConv
    rw [h]
    exact if_pos rfl
  obtain ⟨ha, hb⟩ := foldl_stepConv_spec kernel blend base
    (convert_and_resize kernel blend img0 512 512 bgDefault)
    (pathJoin base srcRel) conversions.tail
    (stepConv kernel blend base fs ⟨srcRel, srcRel, 512, 512⟩)
    hin hout hnd hfs1
  have hsplit : conversions =
      (⟨srcRel, srcRel, 512, 512⟩ : Conv) :: conversions.tail := rfl
  refine ⟨rfl, htail, ?_, ?_⟩
  · unfold runConversions
    rw [hsplit, List.foldl_cons]
    exact ha
  · intro c hc
    unfold runConversions
    rw [hsplit, List.foldl_cons]
    exact hb c hc

/-- Witness for C9 at a concrete filesystem holding a 300×200 source. -/
theorem conversions_overwrite_source_witness :
    conversions.head? = some ⟨srcRel, srcRel, 512, 512⟩ ∧
    (∀ c ∈ conversions.tail, c.input = srcRel ∧ c.output ≠ srcRel) ∧
    runConversions testKernel testBlend [] testFS (pathJoin [] srcRel) =
      some (convert_and_resize testKernel testBlend Zik.img300 512 512
        bgDefault) ∧
    (∀ c ∈ conversions.tail,
      runConversions testKernel testBlend [] testFS (pathJoin [] c.output) =
        some (convert_and_resize testKernel testBlend
          (convert_and_resize testKernel testBlend Zik.img300 512 512
            bgDefault)
          c.tw c.th bgDefault)) :=
  conversions_overwrite_source testKernel testBlend [] testFS Zik.img300
    (by simp [testFS])

end FixLogos
